import Mathlib

/-!
Verification of the baseline-lens-cli analysis and classification pipeline.

This file gives a shallow embedding, in Lean 4, of the pipeline of the
baseline-lens-cli repository: the BCD baseline classifier
(`CompatibilityDataService.convertBCDToBaselineStatus`), the simplified
browser-support check (`CLICompatibilityService.isBrowserSupported`), the
CLI detectors (`CLICSSAnalyzer` / `CLIJavaScriptAnalyzer`), the
project-level file pipeline (`CLIAnalyzer.analyzeProject` /
`analyzeFile` / `findSupportedFiles`) and the aggregation functions
(`generateSummary`, `calculateRiskDistribution`, `shouldFailBuild`).
Each definition is translated from the TypeScript/JavaScript source;
JavaScript-specific behaviour (truthiness, `parseInt`, `lastIndexOf`
with an inclusive start position, `split('\n')`) is modelled explicitly.
-/

namespace BaselineLens

/-! ## Knowledge-base data model

A BCD support statement carries a `version_added` value that, in the
JSON data, can be absent (`undefined`), `null`, `false`, `true` or a
version string; `version_removed`, when present, is a version string
(only its presence is ever consulted by this repository's code).
-/

/-- The possible JavaScript values of a `version_added` field. -/
inductive VersionAdded where
  | vUndefined : VersionAdded
  | vNull : VersionAdded
  | vFalse : VersionAdded
  | vTrue : VersionAdded
  | vStr : String → VersionAdded
  deriving DecidableEq

/-- One BCD support statement (`{version_added, version_removed?}`). -/
structure SupportStatement where
  version_added : VersionAdded
  version_removed : Option String
  deriving DecidableEq

/-- A browser's entry in a BCD `support` object: either a single support
statement or an array of statements.  BCD arrays are non-empty, so the
array case is modelled as a head statement plus the remaining tail
(`support[browser][0]` is the head). -/
inductive BrowserEntry where
  | single : SupportStatement → BrowserEntry
  | array : SupportStatement → List SupportStatement → BrowserEntry
  deriving DecidableEq

/-- The `support` object of a BCD `__compat` record, restricted to the
four browsers the classifier iterates over (`majorBrowsers` in the
source); a `none` field models an absent browser key. -/
structure BCDSupport where
  chrome : Option BrowserEntry := none
  firefox : Option BrowserEntry := none
  safari : Option BrowserEntry := none
  edge : Option BrowserEntry := none
  deriving DecidableEq

/-- A BCD `__compat` record as consumed by the classifier: only its
`support` field is consulted (`none` models a missing/falsy field). -/
structure BCDData where
  support : Option BCDSupport
  deriving DecidableEq

/-- The four tracked browsers. -/
inductive Browser where
  | chrome | firefox | safari | edge
  deriving DecidableEq

/-- Field access `support[browser]`. -/
def BCDSupport.get (s : BCDSupport) : Browser → Option BrowserEntry
  | .chrome => s.chrome
  | .firefox => s.firefox
  | .safari => s.safari
  | .edge => s.edge

/-- Functional update of one browser's entry in a `BCDSupport`. -/
def BCDSupport.set (s : BCDSupport) (b : Browser) (e : Option BrowserEntry) : BCDSupport :=
  match b with
  | .chrome => { s with chrome := e }
  | .firefox => { s with firefox := e }
  | .safari => { s with safari := e }
  | .edge => { s with edge := e }

/-- The recency threshold per browser used by the classifier
(chrome 88, firefox 85, safari 14, edge 88). -/
def recencyThreshold : Browser → Int
  | .chrome => 88
  | .firefox => 85
  | .safari => 14
  | .edge => 88

/-- Iteration order of the classifier loop (`majorBrowsers`). -/
def majorBrowsers : List Browser := [.chrome, .firefox, .safari, .edge]

/-! ## JavaScript primitives used by the classifier -/

/-- JavaScript truthiness of a `version_added` value: `true` and any
non-empty string are truthy; `undefined`, `null`, `false` and the empty
string are falsy. -/
def truthyVersion : VersionAdded → Bool
  | .vTrue => true
  | .vStr s => s ≠ ""
  | _ => false

/-- Whitespace characters skipped by JavaScript `parseInt` (and matched
by the regex class `\s`, restricted to the ASCII range). -/
def isWsChar (c : Char) : Bool :=
  c = ' ' || c = '\t' || c = '\n' || c = '\r' || c = '\x0b' || c = '\x0c'

/-- Decimal value of a list of digit characters, most significant first. -/
def digitsToNat : List Char → Nat → Nat
  | [], acc => acc
  | c :: cs, acc => digitsToNat cs (acc * 10 + (c.toNat - '0'.toNat))

/-- Leading decimal-digit run of a character list, as a number;
`none` when the list does not start with a digit (JS `NaN`). -/
def leadingNat (cs : List Char) : Option Nat :=
  let ds := cs.takeWhile Char.isDigit
  if ds.isEmpty then none else some (digitsToNat ds 0)

/-- JavaScript `parseInt(s)` in base 10: skip leading whitespace, accept
an optional sign, then read leading digits; `none` models `NaN`. -/
def parseIntJS (s : String) : Option Int :=
  match s.data.dropWhile isWsChar with
  | '-' :: rest => (leadingNat rest).map (fun n => -(n : Int))
  | '+' :: rest => (leadingNat rest).map (fun n => (n : Int))
  | rest => (leadingNat rest).map (fun n => (n : Int))

/-- The numeric value `parseInt(version_added)` sees.  A boolean `true`
coerces to the string `"true"`, which parses to `NaN` (`none`); the
falsy values never reach `parseInt` in the source, and also map to
`none` here. -/
def versionNum : VersionAdded → Option Int
  | .vStr s => parseIntJS s
  | _ => none

/-! ## The classifier (`CompatibilityDataService.convertBCDToBaselineStatus`) -/

/-- The three-tier baseline status enum. -/
inductive BStatus where
  | widely_available | newly_available | limited_availability
  deriving DecidableEq

/-- The `supportData` object built by the classifier loop: for each
browser, the `version_added` recorded for it, if the browser was counted
as supported. -/
structure SupportOut where
  chrome : Option VersionAdded := none
  firefox : Option VersionAdded := none
  safari : Option VersionAdded := none
  edge : Option VersionAdded := none
  deriving DecidableEq

/-- Field access into a `SupportOut` by browser. -/
def SupportOut.get (s : SupportOut) : Browser → Option VersionAdded
  | .chrome => s.chrome
  | .firefox => s.firefox
  | .safari => s.safari
  | .edge => s.edge

/-- A `BaselineStatus` value as returned by the classifier: the status
tier plus the `support` object it assembled. -/
structure BaselineStatus where
  status : BStatus
  support : SupportOut := {}
  deriving DecidableEq

/-- `support[browser][0]` when the entry is an array, the entry itself
otherwise (`Array.isArray(support[browser]) ? support[browser][0] :
support[browser]`). -/
def effectiveStatement : BrowserEntry → SupportStatement
  | .single st => st
  | .array h _ => h

/-- One iteration of the classifier loop for one browser entry, with
that browser's recency threshold: returns the `supportData` entry
recorded for the browser (if any) and whether the browser incremented
`recentVersionCount`. -/
def processBrowser (e : Option BrowserEntry) (threshold : Int) :
    Option VersionAdded × Bool :=
  match e with
  | none => (none, false)
  | some entry =>
    let bs := effectiveStatement entry
    if truthyVersion bs.version_added then
      let recent :=
        match versionNum bs.version_added with
        | some v => decide (v ≥ threshold)
        | none => false
      (some bs.version_added, recent)
    else
      (none, false)

/-- `CompatibilityDataService.convertBCDToBaselineStatus` (part_003,
lines 40–84): `none` models a falsy `bcdData` argument. -/
def convertBCDToBaselineStatus (bcdData : Option BCDData) : BaselineStatus :=
  match bcdData with
  | none => { status := .limited_availability }
  | some d =>
    match d.support with
    | none => { status := .limited_availability }
    | some support =>
      let chromeR := processBrowser support.chrome 88
      let firefoxR := processBrowser support.firefox 85
      let safariR := processBrowser support.safari 14
      let edgeR := processBrowser support.edge 88
      let supportData : SupportOut :=
        { chrome := chromeR.1, firefox := firefoxR.1
          safari := safariR.1, edge := edgeR.1 }
      let totalSupported :=
        List.countP Option.isSome [chromeR.1, firefoxR.1, safariR.1, edgeR.1]
      let recentVersionCount :=
        List.countP id [chromeR.2, firefoxR.2, safariR.2, edgeR.2]
      let status :=
        if totalSupported ≥ 4 ∧ recentVersionCount = 0 then
          BStatus.widely_available
        else if totalSupported ≥ 3 ∧ recentVersionCount ≤ 2 then
          BStatus.newly_available
        else
          BStatus.limited_availability
      { status := status, support := supportData }

/-! ## Claim-side counting functions

These restate, independently of the loop, which browsers are supported
and which are recent, so that the classifier can be characterised
against them. -/

/-- A browser entry counts as supported when its effective (first)
support statement has a truthy `version_added`. -/
def entrySupported (e : Option BrowserEntry) : Bool :=
  match e with
  | none => false
  | some entry => truthyVersion (effectiveStatement entry).version_added

/-- A browser entry counts as recent for a threshold when it is
supported and its parsed version is at or above the threshold. -/
def entryRecent (e : Option BrowserEntry) (threshold : Int) : Bool :=
  match e with
  | none => false
  | some entry =>
    let st := effectiveStatement entry
    truthyVersion st.version_added &&
      (match versionNum st.version_added with
       | some v => decide (v ≥ threshold)
       | none => false)

/-- Number of the four tracked browsers supported by a fact. -/
def supportedCount (s : BCDSupport) : Nat :=
  List.countP (fun b => entrySupported (s.get b)) majorBrowsers

/-- Number of the four tracked browsers whose support is recent. -/
def recentCount (s : BCDSupport) : Nat :=
  List.countP (fun b => entryRecent (s.get b) (recencyThreshold b)) majorBrowsers

/-! ## The simplified support check
(`CLICompatibilityService.isBrowserSupported`, part_002 lines 155–171) -/

/-- A browser's raw support value as seen by
`CLICompatibilityService.isBrowserSupported`: a falsy value (`null` /
`undefined`), a support-statement object, or an array of values. -/
inductive BrowserData where
  | null : BrowserData
  | obj : SupportStatement → BrowserData
  | arr : List BrowserData → BrowserData

mutual

/-- `CLICompatibilityService.isBrowserSupported`: falsy data is
unsupported; an array is supported when some element is; an object is
supported when `version_added !== false && version_added !== null &&
version_removed === undefined`. -/
def isBrowserSupported : BrowserData → Bool
  | .null => false
  | .obj st =>
    decide (st.version_added ≠ .vFalse) && decide (st.version_added ≠ .vNull) &&
      decide (st.version_removed = none)
  | .arr l => isBrowserSupportedSome l

/-- `browserData.some(entry => this.isBrowserSupported(entry))`. -/
def isBrowserSupportedSome : List BrowserData → Bool
  | [] => false
  | d :: rest => isBrowserSupported d || isBrowserSupportedSome rest

end

/-! ## Concrete knowledge-base facts used in closed statements -/

/-- A fact supported in all four browsers, none recently
(every version well below its threshold). -/
def allFourOld : BCDSupport :=
  { chrome := some (.single ⟨.vStr "1", none⟩)
    firefox := some (.single ⟨.vStr "1", none⟩)
    safari := some (.single ⟨.vStr "1", none⟩)
    edge := some (.single ⟨.vStr "1", none⟩) }

/-- A fact supported in exactly three browsers, one of them recently
(chrome 90 ≥ 88). -/
def threeOneRecent : BCDSupport :=
  { chrome := some (.single ⟨.vStr "90", none⟩)
    firefox := some (.single ⟨.vStr "1", none⟩)
    safari := some (.single ⟨.vStr "1", none⟩)
    edge := none }

/-- A fact whose four browser entries all carry a removed marker
(`version_added: "1", version_removed: "2"`). -/
def removedEverywhere : BCDSupport :=
  { chrome := some (.single ⟨.vStr "1", some "2"⟩)
    firefox := some (.single ⟨.vStr "1", some "2"⟩)
    safari := some (.single ⟨.vStr "1", some "2"⟩)
    edge := some (.single ⟨.vStr "1", some "2"⟩) }

/-! ## Detectors (build-cli second module: `CLICSSAnalyzer`,
`CLIJavaScriptAnalyzer`)

File text is modelled as a `List Char`.  The CSS detector is the regex
`([a-z-]+)\s*:` run with the `g` flag: repeated `exec` finds, from the
current position, the leftmost match (a maximal run of `[a-z-]`
followed by optional whitespace and a colon) and resumes after it. -/

/-- A detected feature occurrence (the fields of `DetectedFeature` the
pipeline populates; `ftype` models the `type` field). -/
structure DetectedFeature where
  name : String
  ftype : String
  line : Nat
  column : Int
  baselineStatus : BaselineStatus
  filePath : String
  deriving DecidableEq

/-- The character class `[a-z-]` of the CSS property regex. -/
def cssPropChar (c : Char) : Bool :=
  ('a' ≤ c && c ≤ 'z') || c = '-'

/-- Length of the maximal leading run of `[a-z-]` characters
(the greedy `([a-z-]+)` group). -/
def runLen : List Char → Nat
  | [] => 0
  | c :: cs => if cssPropChar c then runLen cs + 1 else 0

/-- Length of the maximal leading whitespace run (the greedy `\s*`). -/
def skipWsLen : List Char → Nat
  | [] => 0
  | c :: cs => if isWsChar c then skipWsLen cs + 1 else 0

/-- Does `([a-z-]+)\s*:` match starting exactly at index `i`?  If so,
returns the end of the captured property run and the end of the whole
match (one past the colon).  Backtracking cannot shorten the greedy
parts: run characters are neither whitespace nor `:`, and whitespace is
not `:`, so the match exists iff the first non-whitespace character
after the maximal run is a colon. -/
def cssMatchAt (cs : List Char) (i : Nat) : Option (Nat × Nat) :=
  match cs.drop i with
  | [] => none
  | c :: _ =>
    if cssPropChar c then
      let j := i + runLen (cs.drop i)
      let m := j + skipWsLen (cs.drop j)
      match cs.drop m with
      | ':' :: _ => some (j, m + 1)
      | _ => none
    else none

/-- The `exec` loop of the CSS detector: starting at `pos`, find the
leftmost match at or after `pos`, emit `(captured property, match
index)`, and resume after the match.  `fuel` bounds the recursion; the
scan advances by at least one position per step. -/
def cssScan (cs : List Char) : Nat → Nat → List (String × Nat)
  | 0, _ => []
  | Nat.succ fuel, pos =>
    if pos < cs.length then
      match cssMatchAt cs pos with
      | some (j, e) =>
        (String.mk ((cs.drop pos).take (j - pos)), pos) :: cssScan cs fuel e
      | none => cssScan cs fuel (pos + 1)
    else []

/-- All matches of the CSS property regex over a text, with their match
indices, in scan order. -/
def cssDetect (cs : List Char) : List (String × Nat) :=
  cssScan cs (cs.length + 1) 0

/-- The JavaScript word-character class `\w` used by the `\b` boundary. -/
def jsWordChar (c : Char) : Bool :=
  c.isAlpha || c.isDigit || c = '_'

/-- The fixed vocabulary of the JavaScript detector regex
`\b(fetch|Promise|async|await|const|let|Map|Set|WeakMap|WeakSet)\b`. -/
def jsKeywords : List String :=
  ["fetch", "Promise", "async", "await", "const", "let",
   "Map", "Set", "WeakMap", "WeakSet"]

/-- Does the JavaScript detector regex match starting at index `i`?
Some keyword occurs at `i` with a word boundary on each side. -/
def jsMatchAt (cs : List Char) (i : Nat) : Bool :=
  jsKeywords.any fun kw =>
    ((cs.drop i).take kw.length == kw.data) &&
    (match i with
     | 0 => true
     | Nat.succ j => !jsWordChar (cs.getD j ' ')) &&
    (match (cs.drop (i + kw.length)).head? with
     | some c => !jsWordChar c
     | none => true)

/-! ## Source-position computation

Both CLI analyzers compute, for a match at character index `i`:
`line = content.substring(0, i).split('\n').length - 1` and
`column = i - content.lastIndexOf('\n', i) - 1`
(JavaScript `lastIndexOf(c, i)` searches backwards from `i`
inclusive and returns `-1` when absent). -/

/-- JavaScript `String.prototype.split` on a single-character
separator. -/
def splitOnNL : List Char → List (List Char)
  | [] => [[]]
  | c :: rest =>
    match splitOnNL rest with
    | [] => [[]]
    | g :: gs => if c = '\n' then [] :: g :: gs else (c :: g) :: gs

/-- `content.substring(0, i).split('\n').length - 1`. -/
def computeLine (cs : List Char) (i : Nat) : Nat :=
  (splitOnNL (cs.take i)).length - 1

/-- Index of the last occurrence of `target` in a list, if any. -/
def lastIdxOf (cs : List Char) (target : Char) : Option Nat :=
  match cs with
  | [] => none
  | c :: rest =>
    match lastIdxOf rest target with
    | some j => some (j + 1)
    | none => if c = target then some 0 else none

/-- JavaScript `content.lastIndexOf(target, fromIdx)`: last occurrence
at an index `≤ fromIdx`, or `-1`. -/
def jsLastIndexOf (cs : List Char) (target : Char) (fromIdx : Nat) : Int :=
  match lastIdxOf (cs.take (fromIdx + 1)) target with
  | some j => (j : Int)
  | none => -1

/-- `i - content.lastIndexOf('\n', i) - 1`. -/
def computeColumn (cs : List Char) (i : Nat) : Int :=
  (i : Int) - jsLastIndexOf cs '\n' i - 1

/-- Index of the last newline strictly before index `i` (`-1` when no
newline precedes `i`) — the quantity named by the specification. -/
def lastNewlineStrictlyBefore (cs : List Char) (i : Nat) : Int :=
  match lastIdxOf (cs.take i) '\n' with
  | some j => (j : Int)
  | none => -1

/-- Number of newlines in the text before index `i`. -/
def countNewlinesBefore (cs : List Char) (i : Nat) : Nat :=
  (cs.take i).count '\n'

/-! ## The CLI CSS analyzer pipeline (`CLICSSAnalyzer.analyze` with
`CompatibilityDataService.getBCDStatus` / `mapCSSPropertyToBCD`) -/

/-- The knowledge base as queried by `getBCDData`: a read-only mapping
from dotted keys to `__compat` records (`none` models `NotFound`). -/
def KB : Type := String → Option BCDData

/-- `CompatibilityDataService.getBCDStatus` (part_003 lines 136–157),
for an initialized service: resolve the key, and when data is found
convert it; a miss returns `null`.  (The memoization cache is
observationally transparent: the same key always converts to the same
status.) -/
def getBCDStatus (kb : KB) (key : String) : Option BaselineStatus :=
  match kb key with
  | none => none
  | some d => some (convertBCDToBaselineStatus (some d))

/-- `CompatibilityDataService.mapCSSPropertyToBCD` as called by the CSS
analyzer (no value argument): the base key. -/
def mapCSSPropertyToBCD (property : String) : String :=
  "css.properties." ++ property

/-- The CSS analyzer's deny-list of universally supported properties. -/
def denyListCSS : List String :=
  ["color", "background", "margin", "padding", "width", "height"]

/-- `CLICSSAnalyzer.analyze`: for each regex match, skip deny-listed
properties, look the property up in the knowledge base, skip the
occurrence when the lookup misses (`if (!baselineStatus) continue`),
and otherwise emit a `DetectedFeature` carrying the computed line and
column and the converted status. -/
def cliCSSAnalyze (kb : KB) (cs : List Char) (fileName : String) :
    List DetectedFeature :=
  (cssDetect cs).filterMap fun pi =>
    let property := pi.1
    let idx := pi.2
    if denyListCSS.contains property then none
    else
      match getBCDStatus kb (mapCSSPropertyToBCD property) with
      | none => none
      | some st =>
        some { name := property, ftype := "css",
               line := computeLine cs idx, column := computeColumn cs idx,
               baselineStatus := st, filePath := fileName }

/-- The empty knowledge base: every lookup misses. -/
def kbEmpty : KB := fun _ => none

/-- A knowledge base resolving exactly `css.properties.unknown-grid-prop`,
to a `__compat` record with no support data. -/
def kbScenarioA : KB := fun k =>
  if k = "css.properties.unknown-grid-prop" then some ⟨none⟩ else none

/-- Scenario A text: `.x { unknown-grid-prop: 1; color: red; }`. -/
def scenarioA : List Char :=
  (".x \x7b unknown-grid-prop: 1; color: red; \x7d").data

/-- The single feature the CSS analyzer emits on `scenarioA` under
`kbScenarioA`. -/
def featScenarioA : DetectedFeature :=
  { name := "unknown-grid-prop", ftype := "css", line := 0, column := 5,
    baselineStatus := { status := .limited_availability },
    filePath := "styles.css" }

/-! ## Aggregation (`CLIAnalyzer.generateSummary`,
`calculateRiskDistribution`, `calculateFileTypeBreakdown`,
`shouldFailBuild`; analyzer.ts) -/

/-- The `summary` object of a `CLIAnalysisResult`. -/
structure Summary where
  widelyAvailable : Nat
  newlyAvailable : Nat
  limitedAvailability : Nat
  deriving DecidableEq

/-- The `riskDistribution` object of a `CLIAnalysisResult`. -/
structure RiskDistribution where
  low : Nat
  medium : Nat
  high : Nat
  deriving DecidableEq

/-- One iteration of the `generateSummary` loop. -/
def summaryStep (s : Summary) (f : DetectedFeature) : Summary :=
  match f.baselineStatus.status with
  | .widely_available => { s with widelyAvailable := s.widelyAvailable + 1 }
  | .newly_available => { s with newlyAvailable := s.newlyAvailable + 1 }
  | .limited_availability =>
    { s with limitedAvailability := s.limitedAvailability + 1 }

/-- `CLIAnalyzer.generateSummary` (analyzer.ts lines 295–317). -/
def generateSummary (features : List DetectedFeature) : Summary :=
  features.foldl summaryStep ⟨0, 0, 0⟩

/-- One iteration of the `calculateRiskDistribution` loop. -/
def riskStep (d : RiskDistribution) (f : DetectedFeature) : RiskDistribution :=
  match f.baselineStatus.status with
  | .widely_available => { d with low := d.low + 1 }
  | .newly_available => { d with medium := d.medium + 1 }
  | .limited_availability => { d with high := d.high + 1 }

/-- `CLIAnalyzer.calculateRiskDistribution` (analyzer.ts lines 322–340). -/
def calculateRiskDistribution (features : List DetectedFeature) :
    RiskDistribution :=
  features.foldl riskStep ⟨0, 0, 0⟩

/-- `breakdown[type] = (breakdown[type] || 0) + 1` on an association
list preserving first-insertion key order (JavaScript object keys). -/
def bumpBreakdown (acc : List (String × Nat)) (ty : String) :
    List (String × Nat) :=
  match acc with
  | [] => [(ty, 1)]
  | (k, n) :: rest =>
    if k = ty then (k, n + 1) :: rest else (k, n) :: bumpBreakdown rest ty

/-- `CLIAnalyzer.calculateFileTypeBreakdown`. -/
def calculateFileTypeBreakdown (features : List DetectedFeature) :
    List (String × Nat) :=
  features.foldl (fun acc f => bumpBreakdown acc f.ftype) []

/-- An entry of the `errors` array (`AnalysisError`). -/
structure AnalysisError where
  file : String
  error : String
  deriving DecidableEq

/-- `CLIAnalysisResult` (analyzer.ts lines 9–27). -/
structure AnalysisResult where
  totalFiles : Nat
  analyzedFiles : Nat
  features : List DetectedFeature
  errors : List AnalysisError
  summary : Summary
  riskDistribution : RiskDistribution
  fileTypeBreakdown : List (String × Nat)
  deriving DecidableEq

/-- JavaScript `String.prototype.toLowerCase` on ASCII text:
character-wise lowercasing. -/
def jsToLowerCase (s : String) : String :=
  String.mk (s.data.map Char.toLower)

/-- `CLIAnalyzer.shouldFailBuild` (analyzer.ts lines 358–369): a switch
on `jsToLowerCase failOnCase()`. -/
def shouldFailBuild (result : AnalysisResult) (failOn : String) : Bool :=
  if jsToLowerCase failOn = "high" then
    decide (result.riskDistribution.high > 0)
  else if jsToLowerCase failOn = "medium" then
    decide (result.riskDistribution.medium > 0) ||
      decide (result.riskDistribution.high > 0)
  else if jsToLowerCase failOn = "low" then
    decide (result.features.length > 0)
  else
    false

/-! ## The file pipeline (`CLIAnalyzer.analyzeProject` / `analyzeFile` /
`findSupportedFiles`)

A discovered file is a path with a byte size (its `stat`) and a
content.  Glob expansion and deduplication are abstracted: the
candidate list produced by the glob walk is the model's input.
The per-file work of `analyzeFile` beyond the size/emptiness checks
(reading, extension dispatch, the timeout race, detector exceptions) is
represented by a detector function for the success path; arbitrary
per-file failures are modelled by the outcome oracle fed to the loop
(`runAnalysisLoop`), which is exactly the `analyzeProject` for-loop
plus aggregation. -/

/-- A discovered file: path, `stat` size in bytes, and content. -/
structure SrcFile where
  path : String
  size : Nat
  content : List Char
  deriving DecidableEq

/-- The size filter of `CLIAnalyzer.findSupportedFiles` (analyzer.ts
lines 250–266): keep exactly the files with `size <= maxFileSize`. -/
def findSupportedFiles (files : List SrcFile) (maxFileSize : Nat) :
    List SrcFile :=
  files.filter (fun f => f.size ≤ maxFileSize)

/-- `CLIAnalyzer.analyzeFile` (analyzer.ts lines 111–214) on a readable
file: throw on `size > maxFileSize`, return no features for an empty
file, otherwise run the detector and attach the file path to each
feature. -/
def analyzeFile (detector : List Char → List DetectedFeature)
    (maxFileSize : Nat) (f : SrcFile) :
    Except String (List DetectedFeature) :=
  if f.size > maxFileSize then
    Except.error ("File too large: " ++ toString f.size ++
      " bytes (max: " ++ toString maxFileSize ++ ")")
  else if f.size = 0 then
    Except.ok []
  else
    Except.ok ((detector f.content).map (fun feat => { feat with filePath := f.path }))

/-- Accumulator of the `analyzeProject` for-loop. -/
structure LoopAcc where
  allFeatures : List DetectedFeature
  errors : List AnalysisError
  analyzedFiles : Nat
  deriving DecidableEq

/-- One iteration of the `analyzeProject` for-loop: a success with at
least one feature extends `allFeatures` and bumps `analyzedFiles`; a
thrown error is caught and appended to `errors`. -/
def loopStep (acc : LoopAcc)
    (po : String × Except String (List DetectedFeature)) : LoopAcc :=
  match po.2 with
  | .ok feats =>
    if feats.length > 0 then
      { acc with allFeatures := acc.allFeatures ++ feats,
                 analyzedFiles := acc.analyzedFiles + 1 }
    else acc
  | .error e => { acc with errors := acc.errors ++ [⟨po.1, e⟩] }

/-- The `analyzeProject` for-loop plus aggregation (analyzer.ts lines
60–106), over the per-file outcomes in discovery order. -/
def runAnalysisLoop
    (outcomes : List (String × Except String (List DetectedFeature))) :
    AnalysisResult :=
  let acc := outcomes.foldl loopStep ⟨[], [], 0⟩
  { totalFiles := outcomes.length
    analyzedFiles := acc.analyzedFiles
    features := acc.allFeatures
    errors := acc.errors
    summary := generateSummary acc.allFeatures
    riskDistribution := calculateRiskDistribution acc.allFeatures
    fileTypeBreakdown := calculateFileTypeBreakdown acc.allFeatures }

/-- `CLIAnalyzer.analyzeProject`: discover (size-filter) the candidate
files, analyze each in order, and aggregate. -/
def analyzeProject (detector : List Char → List DetectedFeature)
    (maxFileSize : Nat) (candidates : List SrcFile) : AnalysisResult :=
  let files := findSupportedFiles candidates maxFileSize
  runAnalysisLoop (files.map (fun f => (f.path, analyzeFile detector maxFileSize f)))

/-- The error entries of a run, in discovery order (claim side). -/
def errorRecords
    (outcomes : List (String × Except String (List DetectedFeature))) :
    List AnalysisError :=
  outcomes.filterMap fun po =>
    match po.2 with
    | .error e => some ⟨po.1, e⟩
    | .ok _ => none

/-- The features of all successful files, in discovery order
(claim side). -/
def okFeatures
    (outcomes : List (String × Except String (List DetectedFeature))) :
    List DetectedFeature :=
  (outcomes.filterMap fun po =>
    match po.2 with
    | .ok fs => some fs
    | .error _ => none).flatten

/-- Number of successful files that produced at least one feature
(claim side, for `analyzedFiles`). -/
def countOkNonempty
    (outcomes : List (String × Except String (List DetectedFeature))) : Nat :=
  outcomes.countP fun po =>
    match po.2 with
    | .ok fs => decide (fs.length > 0)
    | .error _ => false

/-- Every feature of a successful outcome carries that outcome's file
path (the tagging `analyzeFile` performs). -/
def featuresTagged (po : String × Except String (List DetectedFeature)) :
    Bool :=
  match po.2 with
  | .ok fs => fs.all (fun f => f.filePath == po.1)
  | .error _ => true

/-- A feature detected in `a.css`, for closed statements about the
pipeline loop. -/
def featOkA : DetectedFeature := { featScenarioA with filePath := "a.css" }

/-- Outcomes preceding the failing file in the C8 witness run. -/
def preC8 : List (String × Except String (List DetectedFeature)) :=
  [("a.css", Except.ok [featOkA])]

/-- Outcomes following the failing file in the C8 witness run. -/
def postC8 : List (String × Except String (List DetectedFeature)) :=
  [("c.css", Except.ok [])]

/-- The concrete result used in closed statements about
`shouldFailBuild`: one high-risk entry. -/
def resultHighOne : AnalysisResult :=
  { totalFiles := 0, analyzedFiles := 0, features := [], errors := []
    summary := ⟨0, 0, 1⟩, riskDistribution := ⟨0, 0, 1⟩
    fileTypeBreakdown := [] }

/-- A result assembled from one limited-availability feature, for the
C5 witness. -/
def resultOneLimited : AnalysisResult :=
  { totalFiles := 1, analyzedFiles := 1, features := [featScenarioA]
    errors := [], summary := generateSummary [featScenarioA]
    riskDistribution := calculateRiskDistribution [featScenarioA]
    fileTypeBreakdown := calculateFileTypeBreakdown [featScenarioA] }

theorem processBrowser_fst (e : Option BrowserEntry) (t : Int) :
    (processBrowser e t).1 =
      (if entrySupported e then
        Option.map (fun entry => (effectiveStatement entry).version_added) e
       else none) := by
  cases e with
  | none => rfl
  | some entry =>
    by_cases h : truthyVersion (effectiveStatement entry).version_added
    · simp [processBrowser, entrySupported, h]
    · simp [processBrowser, entrySupported, h]

theorem processBrowser_fst_isSome (e : Option BrowserEntry) (t : Int) :
    (processBrowser e t).1.isSome = entrySupported e := by
  cases e with
  | none => rfl
  | some entry =>
    by_cases h : truthyVersion (effectiveStatement entry).version_added
    · simp [processBrowser, entrySupported, h]
    · simp [processBrowser, entrySupported, h]

theorem processBrowser_snd (e : Option BrowserEntry) (t : Int) :
    (processBrowser e t).2 = entryRecent e t := by
  cases e with
  | none => rfl
  | some entry =>
    by_cases h : truthyVersion (effectiveStatement entry).version_added
    · simp [processBrowser, entryRecent, h]
    · simp [processBrowser, entryRecent, h]

theorem convert_support_get (s : BCDSupport) (b : Browser) :
    ((convertBCDToBaselineStatus (some ⟨some s⟩)).support).get b =
      (processBrowser (s.get b) (recencyThreshold b)).1 := by
  cases b <;> rfl

theorem convert_status_eq (s : BCDSupport) :
    (convertBCDToBaselineStatus (some ⟨some s⟩)).status =
      (if supportedCount s ≥ 4 ∧ recentCount s = 0 then BStatus.widely_available
       else if supportedCount s ≥ 3 ∧ recentCount s ≤ 2 then BStatus.newly_available
       else BStatus.limited_availability) := by
  have h1 : supportedCount s =
      List.countP Option.isSome
        [(processBrowser s.chrome 88).1, (processBrowser s.firefox 85).1,
         (processBrowser s.safari 14).1, (processBrowser s.edge 88).1] := by
    simp [supportedCount, majorBrowsers, List.countP_cons, List.countP_nil,
      processBrowser_fst_isSome, BCDSupport.get]
  have h2 : recentCount s =
      List.countP id
        [(processBrowser s.chrome 88).2, (processBrowser s.firefox 85).2,
         (processBrowser s.safari 14).2, (processBrowser s.edge 88).2] := by
    simp [recentCount, majorBrowsers, List.countP_cons, List.countP_nil,
      processBrowser_snd, BCDSupport.get, recencyThreshold]
  show (if List.countP Option.isSome
        [(processBrowser s.chrome 88).1, (processBrowser s.firefox 85).1,
         (processBrowser s.safari 14).1, (processBrowser s.edge 88).1] ≥ 4 ∧
        List.countP id
        [(processBrowser s.chrome 88).2, (processBrowser s.firefox 85).2,
         (processBrowser s.safari 14).2, (processBrowser s.edge 88).2] = 0 then
          BStatus.widely_available
       else if List.countP Option.isSome
        [(processBrowser s.chrome 88).1, (processBrowser s.firefox 85).1,
         (processBrowser s.safari 14).1, (processBrowser s.edge 88).1] ≥ 3 ∧
        List.countP id
        [(processBrowser s.chrome 88).2, (processBrowser s.firefox 85).2,
         (processBrowser s.safari 14).2, (processBrowser s.edge 88).2] ≤ 2 then
          BStatus.newly_available
       else BStatus.limited_availability) = _
  rw [← h1, ← h2]

/-- C1: `convertBCDToBaselineStatus` returns `widely_available` iff at
least 4 of the four tracked browsers are supported and none is recent
(at or above its per-browser threshold: chrome 88, firefox 85,
safari 14, edge 88); otherwise `newly_available` iff at least 3 are
supported and at most 2 are recent; otherwise `limited_availability`.
In particular, a fact supported in all four browsers with zero recent
versions classifies as `widely_available`, and one supported in exactly
3 browsers with 1 recent version classifies as `newly_available`. -/
theorem claim_C1_classifier_characterisation :
    (∀ s : BCDSupport,
      ((convertBCDToBaselineStatus (some ⟨some s⟩)).status = .widely_available ↔
        supportedCount s ≥ 4 ∧ recentCount s = 0) ∧
      ((convertBCDToBaselineStatus (some ⟨some s⟩)).status = .newly_available ↔
        ¬(supportedCount s ≥ 4 ∧ recentCount s = 0) ∧
          (supportedCount s ≥ 3 ∧ recentCount s ≤ 2)) ∧
      ((convertBCDToBaselineStatus (some ⟨some s⟩)).status = .limited_availability ↔
        ¬(supportedCount s ≥ 4 ∧ recentCount s = 0) ∧
          ¬(supportedCount s ≥ 3 ∧ recentCount s ≤ 2))) ∧
    (convertBCDToBaselineStatus (some ⟨some allFourOld⟩)).status = .widely_available ∧
    (convertBCDToBaselineStatus (some ⟨some threeOneRecent⟩)).status = .newly_available := by
  refine ⟨fun s => ?_, by decide, by decide⟩
  rw [convert_status_eq s]
  by_cases hA : supportedCount s ≥ 4 ∧ recentCount s = 0 <;>
    by_cases hB : supportedCount s ≥ 3 ∧ recentCount s ≤ 2 <;>
    simp [hA, hB]

theorem processBrowser_array (h : SupportStatement) (t : List SupportStatement)
    (threshold : Int) :
    processBrowser (some (.array h t)) threshold =
      processBrowser (some (.single h)) threshold := rfl

/-- C10: when a browser's support entry is an array of support records,
`convertBCDToBaselineStatus` consults only the first element: the entry
behaves exactly like its first record alone (so the browser is counted
as supported, and as recent, iff the first record says so), and the
later records have no effect on the resulting `BaselineStatus`. -/
theorem claim_C10_array_first_record_only :
    ∀ (s : BCDSupport) (b : Browser) (h : SupportStatement)
      (t : List SupportStatement),
      convertBCDToBaselineStatus (some ⟨some (s.set b (some (.array h t)))⟩) =
        convertBCDToBaselineStatus (some ⟨some (s.set b (some (.single h)))⟩) ∧
      entrySupported (some (.array h t)) = truthyVersion h.version_added ∧
      entryRecent (some (.array h t)) (recencyThreshold b) =
        entryRecent (some (.single h)) (recencyThreshold b) := by
  intro s b h t
  refine ⟨?_, rfl, rfl⟩
  cases b <;>
    simp [convertBCDToBaselineStatus, BCDSupport.set, processBrowser_array]

/-- C6 counterexample: the claim says an entry carrying a
`version_removed` marker is counted as unsupported regardless of its
added version, and that an unspecified version is counted as
unsupported.  But `convertBCDToBaselineStatus` counts a removed entry
with truthy `version_added` as supported (a fact removed from all four
browsers classifies `widely_available` and records all four in its
support map), and `isBrowserSupported` counts an object with
unspecified `version_added` (and no removed marker) as supported. -/
theorem claim_C6_counterexample :
    (convertBCDToBaselineStatus (some ⟨some removedEverywhere⟩)).status =
      .widely_available ∧
    ((convertBCDToBaselineStatus (some ⟨some removedEverywhere⟩)).support).chrome =
      some (.vStr "1") ∧
    isBrowserSupported (.obj ⟨.vUndefined, none⟩) = true := by
  refine ⟨by decide, by decide, by decide⟩

/-- C6 amended: in `convertBCDToBaselineStatus` a consulted browser
entry is counted as supported iff its effective (first) record's
`version_added` is truthy — unspecified, `null`, `false` (or an empty
string) versions count as unsupported — and `version_removed` is
ignored entirely: the resulting `BaselineStatus` is unchanged under any
change of the removed marker.  In
`CLICompatibilityService.isBrowserSupported` an object entry is
supported iff `version_added` is not `false` and not `null` and
`version_removed` is absent (so an unspecified `version_added` counts
as supported there). -/
theorem claim_C6_amended :
    (∀ (s : BCDSupport) (b : Browser),
      (((convertBCDToBaselineStatus (some ⟨some s⟩)).support).get b).isSome =
        entrySupported (s.get b)) ∧
    (∀ (s : BCDSupport) (b : Browser) (va : VersionAdded)
      (r r' : Option String),
      convertBCDToBaselineStatus (some ⟨some (s.set b (some (.single ⟨va, r⟩)))⟩) =
        convertBCDToBaselineStatus
          (some ⟨some (s.set b (some (.single ⟨va, r'⟩)))⟩)) ∧
    (truthyVersion .vUndefined = false ∧ truthyVersion .vNull = false ∧
      truthyVersion .vFalse = false ∧ truthyVersion (.vStr "") = false) ∧
    (∀ st : SupportStatement,
      isBrowserSupported (.obj st) = true ↔
        st.version_added ≠ .vFalse ∧ st.version_added ≠ .vNull ∧
          st.version_removed = none) := by
  refine ⟨fun s b => ?_, fun s b va r r' => ?_, by decide, fun st => ?_⟩
  · rw [convert_support_get, processBrowser_fst_isSome]
  · have hp : ∀ threshold : Int,
        processBrowser (some (.single ⟨va, r⟩)) threshold =
          processBrowser (some (.single ⟨va, r'⟩)) threshold := by
      intro threshold
      simp [processBrowser, effectiveStatement]
    cases b <;>
      simp [convertBCDToBaselineStatus, BCDSupport.set, hp]
  · simp [isBrowserSupported, and_assoc]

/-! ## Position-computation lemmas -/

theorem splitOnNL_length (l : List Char) :
    (splitOnNL l).length = l.count '\n' + 1 := by
  induction l with
  | nil => rfl
  | cons c rest ih =>
    cases hsp : splitOnNL rest with
    | nil => rw [hsp] at ih; simp at ih
    | cons g gs =>
      rw [hsp] at ih
      by_cases hc : c = '\n'
      · simp [splitOnNL, hsp, hc, List.count_cons] at ih ⊢; omega
      · simp [splitOnNL, hsp, hc, List.count_cons] at ih ⊢; omega

theorem computeLine_eq (cs : List Char) (i : Nat) :
    computeLine cs i = countNewlinesBefore cs i := by
  rw [computeLine, countNewlinesBefore, splitOnNL_length]
  omega

theorem lastIdxOf_append_single (l : List Char) (c t : Char) :
    lastIdxOf (l ++ [c]) t =
      if c = t then some l.length else lastIdxOf l t := by
  induction l with
  | nil => by_cases hc : c = t <;> simp [lastIdxOf, hc]
  | cons b rest ih =>
    simp only [List.cons_append, lastIdxOf, List.append_eq]
    rw [ih]
    by_cases hc : c = t
    · simp [hc]
    · simp only [if_neg hc]

theorem lastIdxOf_eq_none (l : List Char) (t : Char) (h : t ∉ l) :
    lastIdxOf l t = none := by
  induction l with
  | nil => rfl
  | cons b rest ih =>
    simp only [List.mem_cons, not_or] at h
    simp [lastIdxOf, ih h.2, Ne.symm h.1]

theorem take_eq_cons_head {l t : List Char} {a : Char} {n : Nat}
    (h : l.take n = a :: t) : ∃ rest, l = a :: rest := by
  cases l with
  | nil => simp at h
  | cons b rest =>
    cases n with
    | zero => simp at h
    | succ m =>
      rw [List.take_succ_cons] at h
      exact ⟨rest, by rw [(List.cons.injEq b _ a _).mp h |>.1]⟩

theorem cssMatchAt_head (cs : List Char) (i : Nat)
    (h : (cssMatchAt cs i).isSome) :
    ∃ c rest, cs.drop i = c :: rest ∧ cssPropChar c = true := by
  revert h
  unfold cssMatchAt
  cases hd : cs.drop i with
  | nil => simp
  | cons c rest =>
    intro h
    refine ⟨c, rest, rfl, ?_⟩
    by_contra hcc
    simp [hcc] at h

theorem jsMatchAt_head (cs : List Char) (i : Nat)
    (h : jsMatchAt cs i = true) :
    ∃ c rest, cs.drop i = c :: rest ∧ c ≠ '\n' := by
  unfold jsMatchAt at h
  rw [List.any_eq_true] at h
  obtain ⟨kw, hmem, hkw⟩ := h
  simp only [Bool.and_eq_true, beq_iff_eq] at hkw
  have h2 := hkw.1.1
  have hkwhead : ∀ kw ∈ jsKeywords,
      kw.data ≠ [] ∧ kw.data.headD ' ' ≠ '\n' := by decide
  obtain ⟨hne, hhd⟩ := hkwhead kw hmem
  cases hkd : kw.data with
  | nil => exact absurd hkd hne
  | cons c0 t0 =>
    rw [hkd] at hhd h2
    obtain ⟨rest, hrest⟩ := take_eq_cons_head h2
    exact ⟨c0, rest, hrest, hhd⟩

theorem drop_cons_take_succ (cs : List Char) (i : Nat) (c : Char)
    (rest : List Char) (h : cs.drop i = c :: rest) :
    cs.take (i + 1) = cs.take i ++ [c] := by
  have hget : cs[i]? = some c := by
    rw [← List.head?_drop, h]; rfl
  rw [List.take_succ, hget]
  rfl

/-- C9: for every input text and every detector match (of the CSS
detector's `([a-z-]+)\s*:` regex or the JavaScript detector's
keyword regex) starting at character index `i`, the emitted column
equals `i` minus the index of the last newline strictly before `i`
minus 1 (so it equals `i` itself when no newline precedes the match),
and the emitted line equals the number of newlines in the text before
index `i`: both are 0-based positions of the first character of the
matched token in the original text. -/
theorem claim_C9_line_and_column :
    ∀ (cs : List Char) (i : Nat),
      ((cssMatchAt cs i).isSome ∨ jsMatchAt cs i = true) →
      computeColumn cs i = (i : Int) - lastNewlineStrictlyBefore cs i - 1 ∧
      computeLine cs i = countNewlinesBefore cs i ∧
      (countNewlinesBefore cs i = 0 → computeColumn cs i = (i : Int)) := by
  intro cs i h
  obtain ⟨c, rest, hdrop, hcn⟩ :
      ∃ c rest, cs.drop i = c :: rest ∧ c ≠ '\n' := by
    cases h with
    | inl hcss =>
      obtain ⟨c, rest, hdrop, hcp⟩ := cssMatchAt_head cs i hcss
      refine ⟨c, rest, hdrop, ?_⟩
      intro hceq
      rw [hceq] at hcp
      exact absurd hcp (by decide)
    | inr hjs => exact jsMatchAt_head cs i hjs
  have htake := drop_cons_take_succ cs i c rest hdrop
  have hcol : computeColumn cs i =
      (i : Int) - lastNewlineStrictlyBefore cs i - 1 := by
    rw [computeColumn, jsLastIndexOf, htake, lastIdxOf_append_single,
      if_neg hcn, lastNewlineStrictlyBefore]
  refine ⟨hcol, computeLine_eq cs i, fun hzero => ?_⟩
  rw [countNewlinesBefore] at hzero
  have hnone : lastIdxOf (cs.take i) '\n' = none := by
    apply lastIdxOf_eq_none
    intro hmem
    rw [← List.count_pos_iff] at hmem
    omega
  have hlnb : lastNewlineStrictlyBefore cs i = -1 := by
    rw [lastNewlineStrictlyBefore, hnone]
  rw [hcol, hlnb]
  omega

/-- C9 witness: the CSS match at index 5 of `a:b;<newline>x-y: 1`
(line 1, column 0). -/
theorem claim_C9_line_and_column_witness :
    computeColumn (("a:b;\nx-y: 1").data) 5 =
      (5 : Int) - lastNewlineStrictlyBefore (("a:b;\nx-y: 1").data) 5 - 1 ∧
    computeLine (("a:b;\nx-y: 1").data) 5 =
      countNewlinesBefore (("a:b;\nx-y: 1").data) 5 ∧
    (countNewlinesBefore (("a:b;\nx-y: 1").data) 5 = 0 →
      computeColumn (("a:b;\nx-y: 1").data) 5 = (5 : Int)) :=
  claim_C9_line_and_column (("a:b;\nx-y: 1").data) 5 (Or.inl (by decide))

/-! ## Resolution misses (C2) -/

/-- C2 counterexample: on Scenario A's CSS text, the detector finds the
candidates `unknown-grid-prop` and `color`; `color` is deny-listed, and
with a knowledge base on which every lookup misses, the analyzer emits
no feature at all — the unresolved occurrence is dropped, not emitted
as `limited_availability`. -/
theorem claim_C2_counterexample :
    (cssDetect scenarioA).map Prod.fst = ["unknown-grid-prop", "color"] ∧
    cliCSSAnalyze kbEmpty scenarioA "styles.css" = [] := by
  exact ⟨by decide, by decide⟩

/-- C2 amended: a resolution miss is never recorded as an error (the
analyzer produces only features, no error records), but the occurrence
is dropped: every emitted feature comes from a key on which the
knowledge-base lookup succeeded, and its status is the conversion of
the resolved record.  An occurrence is classified
`limited_availability` with empty support when its key resolves to a
record without support data — not when the lookup misses. -/
theorem claim_C2_amended :
    (∀ (kb : KB) (cs : List Char) (fn : String) (f : DetectedFeature),
      f ∈ cliCSSAnalyze kb cs fn →
        ∃ d : BCDData, kb (mapCSSPropertyToBCD f.name) = some d ∧
          f.baselineStatus = convertBCDToBaselineStatus (some d)) ∧
    (∀ d : BCDData, d.support = none →
      convertBCDToBaselineStatus (some d) =
        { status := .limited_availability }) := by
  constructor
  · intro kb cs fn f hf
    rw [cliCSSAnalyze, List.mem_filterMap] at hf
    obtain ⟨pi, _, hsome⟩ := hf
    dsimp only at hsome
    by_cases hden : denyListCSS.contains pi.1
    · rw [if_pos hden] at hsome; exact absurd hsome (by simp)
    · rw [if_neg hden] at hsome
      cases hkb : kb (mapCSSPropertyToBCD pi.1) with
      | none => rw [getBCDStatus, hkb] at hsome; exact absurd hsome (by simp)
      | some d =>
        rw [getBCDStatus, hkb] at hsome
        simp only [Option.some.injEq] at hsome
        refine ⟨d, ?_, ?_⟩
        · rw [← hsome]; exact hkb
        · rw [← hsome]
  · intro d hd
    rw [convertBCDToBaselineStatus, hd]

/-- C2 amended witness: the one feature emitted on Scenario A under the
knowledge base that resolves only `css.properties.unknown-grid-prop`
(to a record with no support data) indeed comes from that successful
lookup. -/
theorem claim_C2_amended_witness :
    ∃ d : BCDData,
      kbScenarioA (mapCSSPropertyToBCD featScenarioA.name) = some d ∧
      featScenarioA.baselineStatus = convertBCDToBaselineStatus (some d) :=
  claim_C2_amended.1 kbScenarioA scenarioA "styles.css" featScenarioA
    (by decide)

/-! ## Aggregation lemmas -/

theorem foldl_summaryStep (features : List DetectedFeature) (s : Summary) :
    features.foldl summaryStep s =
      { widelyAvailable := s.widelyAvailable +
          features.countP (fun f => f.baselineStatus.status == .widely_available)
        newlyAvailable := s.newlyAvailable +
          features.countP (fun f => f.baselineStatus.status == .newly_available)
        limitedAvailability := s.limitedAvailability +
          features.countP (fun f => f.baselineStatus.status == .limited_availability) } := by
  induction features generalizing s with
  | nil => simp [List.countP_nil]
  | cons f rest ih =>
    rw [List.foldl_cons, ih]
    cases hst : f.baselineStatus.status <;>
      simp [summaryStep, hst, List.countP_cons, Summary.mk.injEq] <;> omega

theorem foldl_riskStep (features : List DetectedFeature)
    (d : RiskDistribution) :
    features.foldl riskStep d =
      { low := d.low +
          features.countP (fun f => f.baselineStatus.status == .widely_available)
        medium := d.medium +
          features.countP (fun f => f.baselineStatus.status == .newly_available)
        high := d.high +
          features.countP (fun f => f.baselineStatus.status == .limited_availability) } := by
  induction features generalizing d with
  | nil => simp [List.countP_nil]
  | cons f rest ih =>
    rw [List.foldl_cons, ih]
    cases hst : f.baselineStatus.status <;>
      simp [riskStep, hst, List.countP_cons, RiskDistribution.mk.injEq] <;> omega

theorem countP_status_partition (features : List DetectedFeature) :
    features.countP (fun f => f.baselineStatus.status == .widely_available) +
    features.countP (fun f => f.baselineStatus.status == .newly_available) +
    features.countP (fun f => f.baselineStatus.status == .limited_availability) =
      features.length := by
  induction features with
  | nil => rfl
  | cons f rest ih =>
    cases hst : f.baselineStatus.status <;>
      simp [List.countP_cons, hst] <;> omega

/-- C3: for every `AnalysisResult` assembled by the aggregator from a
feature list, the three summary counts sum to `features.length`, the
three risk counts sum to `features.length`, and the relabeling is
exact: `low = widelyAvailable`, `medium = newlyAvailable`,
`high = limitedAvailability`. -/
theorem claim_C3_summary_and_risk_sums :
    ∀ features : List DetectedFeature,
      (generateSummary features).widelyAvailable +
        (generateSummary features).newlyAvailable +
        (generateSummary features).limitedAvailability = features.length ∧
      (calculateRiskDistribution features).low +
        (calculateRiskDistribution features).medium +
        (calculateRiskDistribution features).high = features.length ∧
      (calculateRiskDistribution features).low =
        (generateSummary features).widelyAvailable ∧
      (calculateRiskDistribution features).medium =
        (generateSummary features).newlyAvailable ∧
      (calculateRiskDistribution features).high =
        (generateSummary features).limitedAvailability := by
  intro features
  rw [generateSummary, calculateRiskDistribution, foldl_summaryStep,
    foldl_riskStep]
  have hp := countP_status_partition features
  simp only [Nat.zero_add]
  exact ⟨hp, hp, trivial, trivial, trivial⟩

theorem shouldFailBuild_iff (r : AnalysisResult) (failOn : String) :
    shouldFailBuild r failOn = true ↔
      (jsToLowerCase failOn = "high" ∧ r.riskDistribution.high > 0) ∨
      (jsToLowerCase failOn = "medium" ∧
        (r.riskDistribution.medium > 0 ∨ r.riskDistribution.high > 0)) ∨
      (jsToLowerCase failOn = "low" ∧ r.features.length > 0) := by
  rw [shouldFailBuild]
  by_cases h1 : jsToLowerCase failOn = "high"
  · simp [h1]
  · rw [if_neg h1]
    by_cases h2 : jsToLowerCase failOn = "medium"
    · simp [h2, h1]
    · rw [if_neg h2]
      by_cases h3 : jsToLowerCase failOn = "low"
      · simp [h3, h1, h2]
      · simp [h3, h1, h2]

/-- C4 counterexample: the claim says `shouldFailBuild` returns `false`
for every `failOn` value other than `"high"`, `"medium"`, `"low"`; but
for the value `"HIGH"` — which is none of the three — it returns `true`
on a result with a positive high-risk count, because the switch is on
`jsToLowerCase failOnCase()`. -/
theorem claim_C4_counterexample :
    shouldFailBuild resultHighOne "HIGH" = true ∧
    ("HIGH" : String) ≠ "high" ∧ ("HIGH" : String) ≠ "medium" ∧
    ("HIGH" : String) ≠ "low" := by
  refine ⟨by decide, by decide, by decide, by decide⟩

/-- C4 amended: `shouldFailBuild(result, failOn)` switches on
`jsToLowerCase failOnCase()`: it returns `true` iff the lowercased level is
`"high"` and `riskDistribution.high > 0`, or `"medium"` and
`riskDistribution.medium > 0` or `riskDistribution.high > 0`, or
`"low"` and `features.length > 0`; for any value whose lowercase form
is none of the three it returns `false`. -/
theorem claim_C4_amended :
    ∀ (r : AnalysisResult) (failOn : String),
      shouldFailBuild r failOn = true ↔
        (jsToLowerCase failOn = "high" ∧ r.riskDistribution.high > 0) ∨
        (jsToLowerCase failOn = "medium" ∧
          (r.riskDistribution.medium > 0 ∨ r.riskDistribution.high > 0)) ∨
        (jsToLowerCase failOn = "low" ∧ r.features.length > 0) :=
  fun r failOn => shouldFailBuild_iff r failOn

/-- C5: for a result whose `summary` and `riskDistribution` were
computed by the aggregator from its features list, failing is monotonic
in the level: failing at `"high"` implies failing at `"medium"`, which
implies failing at `"low"`. -/
theorem claim_C5_monotonic_fail :
    ∀ r : AnalysisResult,
      r.summary = generateSummary r.features →
      r.riskDistribution = calculateRiskDistribution r.features →
      (shouldFailBuild r "high" = true → shouldFailBuild r "medium" = true) ∧
      (shouldFailBuild r "medium" = true → shouldFailBuild r "low" = true) := by
  intro r _ hr
  have hsum : r.riskDistribution.low + r.riskDistribution.medium +
      r.riskDistribution.high = r.features.length := by
    rw [hr, calculateRiskDistribution, foldl_riskStep]
    simpa using countP_status_partition r.features
  constructor
  · intro hh
    rw [shouldFailBuild_iff] at hh ⊢
    rcases hh with ⟨_, hpos⟩ | ⟨habs, _⟩ | ⟨habs, _⟩
    · exact Or.inr (Or.inl ⟨rfl, Or.inr hpos⟩)
    · exact absurd habs (by decide)
    · exact absurd habs (by decide)
  · intro hm
    rw [shouldFailBuild_iff] at hm ⊢
    rcases hm with ⟨habs, _⟩ | ⟨_, hpos⟩ | ⟨habs, _⟩
    · exact absurd habs (by decide)
    · refine Or.inr (Or.inr ⟨rfl, ?_⟩)
      omega
    · exact absurd habs (by decide)

/-- C5 witness: monotonicity instantiated at a concretely assembled
result. -/
theorem claim_C5_monotonic_fail_witness :
    (shouldFailBuild resultOneLimited "high" = true →
      shouldFailBuild resultOneLimited "medium" = true) ∧
    (shouldFailBuild resultOneLimited "medium" = true →
      shouldFailBuild resultOneLimited "low" = true) :=
  claim_C5_monotonic_fail resultOneLimited rfl rfl

/-! ## Pipeline lemmas -/

theorem foldl_loopStep
    (outcomes : List (String × Except String (List DetectedFeature)))
    (acc : LoopAcc) :
    outcomes.foldl loopStep acc =
      ⟨acc.allFeatures ++ okFeatures outcomes,
       acc.errors ++ errorRecords outcomes,
       acc.analyzedFiles + countOkNonempty outcomes⟩ := by
  induction outcomes generalizing acc with
  | nil => simp [okFeatures, errorRecords, countOkNonempty]
  | cons po rest ih =>
    rw [List.foldl_cons, ih]
    obtain ⟨p, out⟩ := po
    cases out with
    | ok fs =>
      by_cases hlen : fs.length > 0
      · simp [loopStep, hlen, okFeatures, errorRecords, countOkNonempty,
          List.filterMap_cons, List.countP_cons, LoopAcc.mk.injEq,
          List.append_assoc]
        omega
      · have hfs : fs = [] := by
          cases fs with
          | nil => rfl
          | cons a l => simp at hlen
        subst hfs
        simp [loopStep, okFeatures, errorRecords, countOkNonempty,
          List.filterMap_cons, List.countP_cons]
    | error e =>
      simp [loopStep, okFeatures, errorRecords, countOkNonempty,
        List.filterMap_cons, List.countP_cons, List.append_assoc]

theorem runAnalysisLoop_spec
    (outcomes : List (String × Except String (List DetectedFeature))) :
    (runAnalysisLoop outcomes).errors = errorRecords outcomes ∧
    (runAnalysisLoop outcomes).features = okFeatures outcomes ∧
    (runAnalysisLoop outcomes).analyzedFiles = countOkNonempty outcomes ∧
    (runAnalysisLoop outcomes).totalFiles = outcomes.length := by
  simp [runAnalysisLoop, foldl_loopStep]

theorem mem_errorRecords
    {outcomes : List (String × Except String (List DetectedFeature))}
    {e : AnalysisError} (h : e ∈ errorRecords outcomes) :
    ∃ po ∈ outcomes, po.1 = e.file ∧ po.2 = Except.error e.error := by
  rw [errorRecords, List.mem_filterMap] at h
  obtain ⟨po, hpo, heq⟩ := h
  cases hout : po.2 with
  | ok fs => rw [hout] at heq; exact absurd heq (by simp)
  | error msg =>
    rw [hout] at heq
    simp only [Option.some.injEq] at heq
    exact ⟨po, hpo, by rw [← heq], by rw [← heq, hout]⟩

theorem mem_okFeatures
    {outcomes : List (String × Except String (List DetectedFeature))}
    {f : DetectedFeature} (h : f ∈ okFeatures outcomes) :
    ∃ po ∈ outcomes, ∃ fs, po.2 = Except.ok fs ∧ f ∈ fs := by
  rw [okFeatures, List.mem_flatten] at h
  obtain ⟨fs, hfs, hf⟩ := h
  rw [List.mem_filterMap] at hfs
  obtain ⟨po, hpo, heq⟩ := hfs
  cases hout : po.2 with
  | ok fs0 =>
    rw [hout] at heq
    simp only [Option.some.injEq] at heq
    exact ⟨po, hpo, fs, by rw [hout, heq], hf⟩
  | error msg => rw [hout] at heq; exact absurd heq (by simp)

/-- C8: if analyzing one file in the run throws while every other file
has a different path (and each successful file's features are tagged
with its own path, as `analyzeFile` does), the result contains exactly
one `errors` entry naming that file, no feature for that file, and the
features and errors of every other file unchanged; the aggregation is a
total function, so a complete `AnalysisResult` (with `totalFiles` equal
to the number of processed files) is always returned. -/
theorem claim_C8_per_file_error_isolation :
    ∀ (pre post : List (String × Except String (List DetectedFeature)))
      (p m : String),
      (∀ po ∈ pre ++ post, po.1 ≠ p) →
      (∀ po ∈ pre ++ (p, Except.error m) :: post, featuresTagged po = true) →
      (runAnalysisLoop (pre ++ (p, Except.error m) :: post)).errors.filter
          (fun e => e.file == p) = [⟨p, m⟩] ∧
      (runAnalysisLoop (pre ++ (p, Except.error m) :: post)).features.filter
          (fun f => f.filePath == p) = [] ∧
      (runAnalysisLoop (pre ++ (p, Except.error m) :: post)).features =
        okFeatures pre ++ okFeatures post ∧
      (runAnalysisLoop (pre ++ (p, Except.error m) :: post)).errors =
        errorRecords pre ++ ⟨p, m⟩ :: errorRecords post ∧
      (runAnalysisLoop (pre ++ (p, Except.error m) :: post)).totalFiles =
        pre.length + 1 + post.length := by
  intro pre post p m hpaths htagged
  have hspec := runAnalysisLoop_spec (pre ++ (p, Except.error m) :: post)
  have herr : errorRecords (pre ++ (p, Except.error m) :: post) =
      errorRecords pre ++ ⟨p, m⟩ :: errorRecords post := by
    simp [errorRecords, List.filterMap_append, List.filterMap_cons]
  have hfeat : okFeatures (pre ++ (p, Except.error m) :: post) =
      okFeatures pre ++ okFeatures post := by
    simp [okFeatures, List.filterMap_append, List.filterMap_cons,
      List.flatten_append]
  have hprefilter : ∀ l, (∀ po ∈ l, po ∈ pre ++ post) →
      (errorRecords l).filter (fun e => e.file == p) = [] := by
    intro l hl
    rw [List.filter_eq_nil_iff]
    intro e he
    obtain ⟨po, hpo, hfile, _⟩ := mem_errorRecords he
    have := hpaths po (hl po hpo)
    simp only [beq_iff_eq]
    rw [← hfile]
    exact this
  have hfeatfilter : ∀ l, (∀ po ∈ l, po ∈ pre ++ post) →
      (∀ po ∈ l, featuresTagged po = true) →
      (okFeatures l).filter (fun f => f.filePath == p) = [] := by
    intro l hl hlt
    rw [List.filter_eq_nil_iff]
    intro f hf
    obtain ⟨po, hpo, fs, hok, hfin⟩ := mem_okFeatures hf
    have htag := hlt po hpo
    rw [featuresTagged, hok, List.all_eq_true] at htag
    have hfp : f.filePath = po.1 := by
      have := htag f hfin
      simpa using this
    have := hpaths po (hl po hpo)
    simp only [beq_iff_eq]
    rw [hfp]
    exact this
  refine ⟨?_, ?_, ?_, ?_, ?_⟩
  · rw [hspec.1, herr, List.filter_append, List.filter_cons]
    rw [hprefilter pre (fun po hpo => List.mem_append_left post hpo),
      hprefilter post (fun po hpo => List.mem_append_right pre hpo)]
    simp
  · rw [hspec.2.1, hfeat, List.filter_append]
    rw [hfeatfilter pre (fun po hpo => List.mem_append_left post hpo)
        (fun po hpo => htagged po (List.mem_append_left _ hpo)),
      hfeatfilter post (fun po hpo => List.mem_append_right pre hpo)
        (fun po hpo => htagged po
          (List.mem_append_right _ (List.mem_cons_of_mem _ hpo)))]
    rfl
  · rw [hspec.2.1, hfeat]
  · rw [hspec.1, herr]
  · rw [hspec.2.2.2]
    simp
    omega

/-- C8 witness: a three-file run whose middle file throws a
permission-denied error. -/
theorem claim_C8_per_file_error_isolation_witness :
    (runAnalysisLoop
        (preC8 ++ ("bad.css", Except.error "Permission denied: bad.css")
          :: postC8)).errors.filter
        (fun e => e.file == "bad.css") =
      [⟨"bad.css", "Permission denied: bad.css"⟩] ∧
    (runAnalysisLoop
        (preC8 ++ ("bad.css", Except.error "Permission denied: bad.css")
          :: postC8)).features.filter
        (fun f => f.filePath == "bad.css") = [] ∧
    (runAnalysisLoop
        (preC8 ++ ("bad.css", Except.error "Permission denied: bad.css")
          :: postC8)).features = okFeatures preC8 ++ okFeatures postC8 ∧
    (runAnalysisLoop
        (preC8 ++ ("bad.css", Except.error "Permission denied: bad.css")
          :: postC8)).errors =
      errorRecords preC8 ++
        ⟨"bad.css", "Permission denied: bad.css"⟩ :: errorRecords postC8 ∧
    (runAnalysisLoop
        (preC8 ++ ("bad.css", Except.error "Permission denied: bad.css")
          :: postC8)).totalFiles = preC8.length + 1 + postC8.length :=
  claim_C8_per_file_error_isolation preC8 postC8 "bad.css"
    "Permission denied: bad.css" (by decide) (by decide)

/-- C7 (code bug): with the configured `maxFileSize` of 1024 bytes (the
minimum the validator accepts), a discovered file of exactly 1024 bytes
passes discovery and `analyzeFile` hands its content to the detector;
but a file of 1025 bytes is silently filtered out by
`findSupportedFiles`, so `analyzeProject` returns no error entry for it
(and does not count it in `totalFiles`) — even though `analyzeFile`
itself would throw the `File too large` error the claim (and the
specification) expects to surface in `errors`. -/
theorem claim_C7_size_boundary :
    ∀ (detector : List Char → List DetectedFeature) (cs : List Char)
      (p : String),
      analyzeFile detector 1024 ⟨p, 1024, cs⟩ =
        Except.ok ((detector cs).map (fun feat => { feat with filePath := p })) ∧
      (analyzeProject detector 1024 [⟨p, 1024, cs⟩]).features =
        (detector cs).map (fun feat => { feat with filePath := p }) ∧
      (analyzeProject detector 1024 [⟨p, 1024, cs⟩]).errors = [] ∧
      findSupportedFiles [⟨p, 1025, cs⟩] 1024 = [] ∧
      (analyzeProject detector 1024 [⟨p, 1025, cs⟩]).errors = [] ∧
      (analyzeProject detector 1024 [⟨p, 1025, cs⟩]).totalFiles = 0 ∧
      (analyzeProject detector 1024 [⟨p, 1025, cs⟩]).features = [] ∧
      analyzeFile detector 1024 ⟨p, 1025, cs⟩ =
        Except.error ("File too large: 1025 bytes (max: 1024)") := by
  intro detector cs p
  have hok : analyzeFile detector 1024 ⟨p, 1024, cs⟩ =
      Except.ok ((detector cs).map (fun feat => { feat with filePath := p })) := by
    rw [analyzeFile]
    simp
  have hbig : findSupportedFiles [⟨p, 1025, cs⟩] 1024 = [] := by
    simp [findSupportedFiles]
  have hproj : analyzeProject detector 1024 [⟨p, 1024, cs⟩] =
      runAnalysisLoop [(p, analyzeFile detector 1024 ⟨p, 1024, cs⟩)] := rfl
  have hproj2 : analyzeProject detector 1024 [⟨p, 1025, cs⟩] =
      runAnalysisLoop [] := rfl
  have hstr : ("File too large: " ++ toString (1025 : Nat) ++
      " bytes (max: " ++ toString (1024 : Nat) ++ ")") =
      "File too large: 1025 bytes (max: 1024)" := by decide
  refine ⟨hok, ?_, ?_, hbig, ?_, ?_, ?_, by rw [analyzeFile]; simp [hstr]⟩
  · rw [hproj, (runAnalysisLoop_spec _).2.1, hok]
    simp [okFeatures, List.filterMap_cons]
  · rw [hproj, (runAnalysisLoop_spec _).1, hok]
    simp [errorRecords, List.filterMap_cons]
  · rw [hproj2]
    exact (runAnalysisLoop_spec []).1
  · rw [hproj2]
    exact (runAnalysisLoop_spec []).2.2.2
  · rw [hproj2]
    exact (runAnalysisLoop_spec []).2.1

end BaselineLens
